import Mathlib

/-!
Shallow embedding of the three FastAPI services of this repository:
the typed item service (`custom_base_model/main.py`), the untyped item
service (`simple_server/main.py`) and the image service
(`image_server/main.py`).

Each service keeps one process-global mutable list `items`; handlers read
and append to it.  The embedding passes that global explicitly: every
handler takes the current list and returns the pair
(list after the call, HTTP response).  Fallible handlers return
`Except HTTPException` for the response, mirroring `raise HTTPException`.
Python `int` is `Int`; the float `price` field is never computed with,
only stored and echoed, so it is carried as an exact rational.
-/

/-- fastapi.HTTPException: an HTTP status code and a detail message. -/
structure HTTPException where
  status_code : Nat
  detail : String
deriving DecidableEq, Repr

/-- Python list slicing `xs[0:stop]` with step 1: a nonnegative `stop`
takes the first `stop` elements (clamped to the length); a negative
`stop` counts from the end, clamped below at 0. -/
def pySliceTo {α : Type} (xs : List α) (stop : Int) : List α :=
  if 0 ≤ stop then xs.take stop.toNat
  else xs.take (xs.length - stop.natAbs)

/-- Extract the success value of a handler response, if any. -/
def okOf {α : Type} : Except HTTPException α → Option α
  | .ok a => some a
  | .error _ => none

namespace CustomBaseModel

/-- pydantic `Item` model of `custom_base_model/main.py`: `name : str`,
`description : str | None = None`, `price : float`, `quantity : int = 1`. -/
structure Item where
  name : String
  description : Option String := none
  price : ℚ
  quantity : Int := 1
deriving DecidableEq, Repr

/-- `POST /items`: `items.append(item); return items`. -/
def create_item (items : List Item) (item : Item) : List Item × List Item :=
  let items' := items ++ [item]
  (items', items')

/-- `GET /items`: `if limit is not None: return items[0:limit]; return items`. -/
def list_items (items : List Item) (limit : Option Int) : List Item × List Item :=
  match limit with
  | some l => (items, pySliceTo items l)
  | none => (items, items)

/-- `GET /items/\x7bitem_id\x7d`: bounds check, 404 on failure, else `items[item_id]`. -/
def get_item (items : List Item) (item_id : Int) :
    List Item × Except HTTPException Item :=
  if h : item_id < 0 ∨ item_id ≥ (items.length : Int) then
    (items, .error ⟨404, "Item " ++ toString item_id ++ " not found"⟩)
  else
    (items, .ok (items.get ⟨item_id.toNat, by omega⟩))

/-- One incoming request to the typed service. -/
inductive Request where
  | create (item : Item)
  | list (limit : Option Int)
  | get (item_id : Int)

/-- The state of the global `items` list after handling one request. -/
def step (items : List Item) : Request → List Item
  | .create x => (create_item items x).1
  | .list l => (list_items items l).1
  | .get i => (get_item items i).1

end CustomBaseModel

namespace SimpleServer

/-- `POST /items`: `items.append(item); return items` (items are bare strings). -/
def create_item (items : List String) (item : String) :
    List String × List String :=
  let items' := items ++ [item]
  (items', items')

/-- `GET /items`: `if limit is not None: return items[0:limit]; return items`. -/
def list_items (items : List String) (limit : Option Int) :
    List String × List String :=
  match limit with
  | some l => (items, pySliceTo items l)
  | none => (items, items)

/-- `GET /items/\x7bitem_id\x7d`: bounds check, 404 carrying the current
length on failure, else `items[item_id]`. -/
def get_item (items : List String) (item_id : Int) :
    List String × Except HTTPException String :=
  if h : item_id < 0 ∨ item_id ≥ (items.length : Int) then
    (items, .error ⟨404, "Index " ++ toString item_id ++ " out of range "
      ++ toString items.length⟩)
  else
    (items, .ok (items.get ⟨item_id.toNat, by omega⟩))

/-- One incoming request to the untyped service. -/
inductive Request where
  | create (item : String)
  | list (limit : Option Int)
  | get (item_id : Int)

/-- The state of the global `items` list after handling one request. -/
def step (items : List String) : Request → List String
  | .create x => (create_item items x).1
  | .list l => (list_items items l).1
  | .get i => (get_item items i).1

end SimpleServer

namespace ImageServer

/-- The fixed 8-byte PNG file signature. -/
def pngSignature : List Nat := [0x89, 0x50, 0x4E, 0x47, 0x0D, 0x0A, 0x1A, 0x0A]

/-- Modelled from the spec: the call `cv2.imencode` with the ".png" flag in
`get_image` is an external library whose code is not in the repository; the
spec says the asset is re-encoded as PNG, and the PNG container format fixes
the 8-byte signature ahead of the encoded chunk data. -/
def imencodePNG (chunkData : List Nat) : List Nat := pngSignature ++ chunkData

/-- fastapi StreamingResponse: the streamed body bytes and the media type. -/
structure StreamingResponseModel where
  body : List Nat
  media_type : String

/-- `GET /image`: re-encode the fixed asset as PNG and stream it with
media type "image/png".  The encoder output past the signature depends on
the asset, so it is a parameter. -/
def get_image (chunkData : List Nat) : StreamingResponseModel :=
  { body := imencodePNG chunkData, media_type := "image/png" }

end ImageServer

/-- The typed create input of the worked scenario:
`\x7b"name":"Apple","price":1.5\x7d`, with `description` and `quantity`
absent, so the model defaults fill them in. -/
def appleInput : CustomBaseModel.Item := { name := "Apple", price := 1.5 }

/-- C1: for every prior state and every item, create_item appends the item
at the end of the backing sequence and returns the full updated sequence in
insertion order, in both the typed and the untyped service. -/
theorem claim_C1 (s : List CustomBaseModel.Item) (x : CustomBaseModel.Item)
    (u : List String) (y : String) :
    CustomBaseModel.create_item s x = (s ++ [x], s ++ [x]) ∧
    SimpleServer.create_item u y = (u ++ [y], u ++ [y]) :=
  ⟨rfl, rfl⟩

/-- C6: from the empty sequence, creating Apple (description and quantity
absent) and then listing with no limit yields exactly one item with name
"Apple", description null, price 1.5 and quantity 1: the absent description
defaults to null and the absent quantity defaults to 1. -/
theorem claim_C6 :
    appleInput.description = none ∧ appleInput.quantity = 1 ∧
    (CustomBaseModel.list_items
        (CustomBaseModel.create_item [] appleInput).1 none).2 =
      [{ name := "Apple", description := none, price := 1.5, quantity := 1 }] :=
  ⟨rfl, rfl, rfl⟩

/-- Helper: listing never changes the typed backing sequence. -/
lemma cbm_list_fst (s : List CustomBaseModel.Item) (l : Option Int) :
    (CustomBaseModel.list_items s l).1 = s := by
  cases l <;> rfl

/-- Helper: retrieval never changes the typed backing sequence. -/
lemma cbm_get_fst (s : List CustomBaseModel.Item) (i : Int) :
    (CustomBaseModel.get_item s i).1 = s := by
  unfold CustomBaseModel.get_item
  split <;> rfl

/-- Helper: listing never changes the untyped backing sequence. -/
lemma ss_list_fst (u : List String) (l : Option Int) :
    (SimpleServer.list_items u l).1 = u := by
  cases l <;> rfl

/-- Helper: retrieval never changes the untyped backing sequence. -/
lemma ss_get_fst (u : List String) (i : Int) :
    (SimpleServer.get_item u i).1 = u := by
  unfold SimpleServer.get_item
  split <;> rfl

/-- Helper: a Python slice from 0 with a nonnegative stop takes a prefix. -/
lemma pySliceTo_nonneg {α : Type} (xs : List α) (k : Int) (hk : 0 ≤ k) :
    pySliceTo xs k = xs.take k.toNat := by
  unfold pySliceTo
  rw [if_pos hk]

/-- Helper: a Python slice from 0 with a negative stop drops a suffix. -/
lemma pySliceTo_neg {α : Type} (xs : List α) (k : Int) (hk : k < 0) :
    pySliceTo xs k = xs.take ((xs.length : Int) + k).toNat := by
  unfold pySliceTo
  rw [if_neg (by omega)]
  congr 1
  omega

/-- Helper: the typed retrieval response, seen through okOf. -/
lemma cbm_get_okOf (s : List CustomBaseModel.Item) (i : Int) :
    okOf (CustomBaseModel.get_item s i).2 =
      if 0 ≤ i then s[i.toNat]? else none := by
  unfold CustomBaseModel.get_item
  by_cases h : i < 0 ∨ i ≥ (s.length : Int)
  · rw [dif_pos h]
    by_cases h0 : 0 ≤ i
    · rw [if_pos h0, List.getElem?_eq_none (by omega)]
      rfl
    · rw [if_neg h0]
      rfl
  · rw [dif_neg h, if_pos (by omega), List.getElem?_eq_getElem (by omega)]
    rfl

/-- Helper: the untyped retrieval response, seen through okOf. -/
lemma ss_get_okOf (u : List String) (i : Int) :
    okOf (SimpleServer.get_item u i).2 =
      if 0 ≤ i then u[i.toNat]? else none := by
  unfold SimpleServer.get_item
  by_cases h : i < 0 ∨ i ≥ (u.length : Int)
  · rw [dif_pos h]
    by_cases h0 : 0 ≤ i
    · rw [if_pos h0, List.getElem?_eq_none (by omega)]
      rfl
    · rw [if_neg h0]
      rfl
  · rw [dif_neg h, if_pos (by omega), List.getElem?_eq_getElem (by omega)]
    rfl

/-- Helper: the typed retrieval fails, with the exact 404 message, exactly
on out-of-range indices. -/
lemma cbm_get_err (s : List CustomBaseModel.Item) (i : Int)
    (h : i < 0 ∨ i ≥ (s.length : Int)) :
    (CustomBaseModel.get_item s i).2 =
      .error ⟨404, "Item " ++ toString i ++ " not found"⟩ := by
  unfold CustomBaseModel.get_item
  rw [dif_pos h]

/-- Helper: the untyped retrieval fails, with the exact 404 message, exactly
on out-of-range indices. -/
lemma ss_get_err (u : List String) (i : Int)
    (h : i < 0 ∨ i ≥ (u.length : Int)) :
    (SimpleServer.get_item u i).2 =
      .error ⟨404, "Index " ++ toString i ++ " out of range "
        ++ toString u.length⟩ := by
  unfold SimpleServer.get_item
  rw [dif_pos h]

/-- Helper: the typed retrieval errors (with status 404) exactly on
out-of-range indices. -/
lemma cbm_get_err_iff (s : List CustomBaseModel.Item) (i : Int) :
    (∃ e, (CustomBaseModel.get_item s i).2 = .error e ∧ e.status_code = 404) ↔
      (i < 0 ∨ i ≥ (s.length : Int)) := by
  constructor
  · rintro ⟨e, he, -⟩
    by_contra h
    unfold CustomBaseModel.get_item at he
    rw [dif_neg h] at he
    exact Except.noConfusion he
  · intro h
    exact ⟨_, cbm_get_err s i h, rfl⟩

/-- Helper: the untyped retrieval errors (with status 404) exactly on
out-of-range indices. -/
lemma ss_get_err_iff (u : List String) (i : Int) :
    (∃ e, (SimpleServer.get_item u i).2 = .error e ∧ e.status_code = 404) ↔
      (i < 0 ∨ i ≥ (u.length : Int)) := by
  constructor
  · rintro ⟨e, he, -⟩
    by_contra h
    unfold SimpleServer.get_item at he
    rw [dif_neg h] at he
    exact Except.noConfusion he
  · intro h
    exact ⟨_, ss_get_err u i h, rfl⟩

/-- C2: get_item returns the i-th item exactly when 0 ≤ i < length (the
response, read through okOf, is the i-th entry of the sequence for
nonnegative i and nothing otherwise), and fails with a 404 error exactly
when i < 0 or i ≥ length, in both the typed and the untyped service. -/
theorem claim_C2 (s : List CustomBaseModel.Item) (u : List String) (i : Int) :
    (okOf (CustomBaseModel.get_item s i).2 =
        if 0 ≤ i then s[i.toNat]? else none) ∧
    ((∃ e, (CustomBaseModel.get_item s i).2 = .error e ∧ e.status_code = 404)
        ↔ (i < 0 ∨ i ≥ (s.length : Int))) ∧
    (okOf (SimpleServer.get_item u i).2 =
        if 0 ≤ i then u[i.toNat]? else none) ∧
    ((∃ e, (SimpleServer.get_item u i).2 = .error e ∧ e.status_code = 404)
        ↔ (i < 0 ∨ i ≥ (u.length : Int))) :=
  ⟨cbm_get_okOf s i, cbm_get_err_iff s i, ss_get_okOf u i, ss_get_err_iff u i⟩

/-- C3: with no limit, list_items returns the entire sequence; with a
nonnegative limit k it returns exactly the first min(k, length) items, so a
limit beyond the length returns the whole sequence and never an error; in
both the typed and the untyped service. -/
theorem claim_C3 (s : List CustomBaseModel.Item) (u : List String) (k : Int) :
    ((CustomBaseModel.list_items s none).2 = s ∧
      (SimpleServer.list_items u none).2 = u) ∧
    (0 ≤ k →
      (CustomBaseModel.list_items s (some k)).2 = s.take k.toNat ∧
      ((CustomBaseModel.list_items s (some k)).2).length = min k.toNat s.length ∧
      (SimpleServer.list_items u (some k)).2 = u.take k.toNat ∧
      ((SimpleServer.list_items u (some k)).2).length = min k.toNat u.length) ∧
    ((s.length : Int) ≤ k → (CustomBaseModel.list_items s (some k)).2 = s) ∧
    ((u.length : Int) ≤ k → (SimpleServer.list_items u (some k)).2 = u) := by
  refine ⟨⟨rfl, rfl⟩, ?_, ?_, ?_⟩
  · intro hk
    have hs : (CustomBaseModel.list_items s (some k)).2 = s.take k.toNat :=
      pySliceTo_nonneg s k hk
    have hu : (SimpleServer.list_items u (some k)).2 = u.take k.toNat :=
      pySliceTo_nonneg u k hk
    refine ⟨hs, ?_, hu, ?_⟩
    · rw [hs, List.length_take]
    · rw [hu, List.length_take]
  · intro hk
    have h := pySliceTo_nonneg s k (by omega)
    rw [show (CustomBaseModel.list_items s (some k)).2 = pySliceTo s k from rfl,
      h]
    exact List.take_of_length_le (by omega)
  · intro hk
    have h := pySliceTo_nonneg u k (by omega)
    rw [show (SimpleServer.list_items u (some k)).2 = pySliceTo u k from rfl,
      h]
    exact List.take_of_length_le (by omega)

/-- C3 witness: at a concrete state and limits, evaluated. -/
theorem claim_C3_witness :
    (CustomBaseModel.list_items [appleInput] none).2 = [appleInput] ∧
    (SimpleServer.list_items ["a", "b", "c"] (some 2)).2 = ["a", "b"] ∧
    (SimpleServer.list_items ["a", "b", "c"] (some 9)).2 = ["a", "b", "c"] := by
  have h1 := claim_C3 [appleInput] ["a", "b", "c"] 2
  have h2 := claim_C3 [appleInput] ["a", "b", "c"] 9
  refine ⟨h1.1.1, ?_, ?_⟩
  · exact ((h1.2.1 (by decide)).2.2.1).trans (by decide)
  · exact h2.2.2.2 (by decide)

/-- C9: for a negative limit l, list_items returns the first
max(length + l, 0) items — Python slice semantics drop the last |l|
items — and when |l| ≥ length it returns the empty list, never an error;
in both the typed and the untyped service. -/
theorem claim_C9 (s : List CustomBaseModel.Item) (u : List String) (l : Int)
    (hl : l < 0) :
    (CustomBaseModel.list_items s (some l)).2 =
      s.take ((s.length : Int) + l).toNat ∧
    (SimpleServer.list_items u (some l)).2 =
      u.take ((u.length : Int) + l).toNat ∧
    (l ≤ -(s.length : Int) → (CustomBaseModel.list_items s (some l)).2 = []) ∧
    (l ≤ -(u.length : Int) → (SimpleServer.list_items u (some l)).2 = []) := by
  have hs : (CustomBaseModel.list_items s (some l)).2 =
      s.take ((s.length : Int) + l).toNat := pySliceTo_neg s l hl
  have hu : (SimpleServer.list_items u (some l)).2 =
      u.take ((u.length : Int) + l).toNat := pySliceTo_neg u l hl
  refine ⟨hs, hu, ?_, ?_⟩
  · intro h
    rw [hs, show ((s.length : Int) + l).toNat = 0 from by omega]
    rfl
  · intro h
    rw [hu, show ((u.length : Int) + l).toNat = 0 from by omega]
    rfl

/-- C9 witness: dropping one item from the end at a concrete state. -/
theorem claim_C9_witness :
    (CustomBaseModel.list_items [appleInput] (some (-1))).2 = [] ∧
    (SimpleServer.list_items ["a", "b"] (some (-1))).2 = ["a"] := by
  have h := claim_C9 [appleInput] ["a", "b"] (-1) (by decide)
  exact ⟨h.2.2.1 (by decide), h.2.1.trans (by decide)⟩

/-- Helper: a step that at most appends one element at the end keeps every
existing index pointing at its original element. -/
lemma append_one_preserves_getElem {α : Type} (s t : List α)
    (h : t = s ∨ ∃ x, t = s ++ [x]) :
    ∀ (i : Nat) (x : α), s[i]? = some x → t[i]? = some x := by
  intro i x hx
  rcases h with h | ⟨y, h⟩
  · rw [h]
    exact hx
  · have hi : i < s.length := by
      by_contra hcon
      rw [List.getElem?_eq_none (by omega)] at hx
      exact Option.noConfusion hx
    rw [h, List.getElem?_append_left hi]
    exact hx

/-- Helper: the typed service step either keeps the sequence or appends
exactly one item at its end. -/
lemma cbm_step_shape (s : List CustomBaseModel.Item)
    (r : CustomBaseModel.Request) :
    CustomBaseModel.step s r = s ∨
      ∃ x, CustomBaseModel.step s r = s ++ [x] := by
  cases r with
  | create x => exact Or.inr ⟨x, rfl⟩
  | list l => exact Or.inl (cbm_list_fst s l)
  | get i => exact Or.inl (cbm_get_fst s i)

/-- Helper: the untyped service step either keeps the sequence or appends
exactly one item at its end. -/
lemma ss_step_shape (u : List String) (r : SimpleServer.Request) :
    SimpleServer.step u r = u ∨ ∃ y, SimpleServer.step u r = u ++ [y] := by
  cases r with
  | create y => exact Or.inr ⟨y, rfl⟩
  | list l => exact Or.inl (ss_list_fst u l)
  | get i => exact Or.inl (ss_get_fst u i)

/-- C4: the backing sequence is append-only: every request either leaves
the sequence unchanged or extends it by exactly one item at the end, so
every previously created item stays at its original index; in both the
typed and the untyped service. -/
theorem claim_C4 (s : List CustomBaseModel.Item) (r : CustomBaseModel.Request)
    (u : List String) (r2 : SimpleServer.Request) :
    ((CustomBaseModel.step s r = s ∨
        ∃ x, CustomBaseModel.step s r = s ++ [x]) ∧
      ∀ (i : Nat) (x : CustomBaseModel.Item),
        s[i]? = some x → (CustomBaseModel.step s r)[i]? = some x) ∧
    ((SimpleServer.step u r2 = u ∨
        ∃ y, SimpleServer.step u r2 = u ++ [y]) ∧
      ∀ (i : Nat) (y : String),
        u[i]? = some y → (SimpleServer.step u r2)[i]? = some y) :=
  ⟨⟨cbm_step_shape s r, append_one_preserves_getElem s _ (cbm_step_shape s r)⟩,
    ⟨ss_step_shape u r2, append_one_preserves_getElem u _ (ss_step_shape u r2)⟩⟩

/-- C4 witness: a concrete create keeps index 0 stable. -/
theorem claim_C4_witness :
    CustomBaseModel.step [appleInput] (.create appleInput)
        = [appleInput] ++ [appleInput] ∧
    (SimpleServer.step ["a"] (.create "b"))[0]? = some "a" := by
  have h := claim_C4 [appleInput] (.create appleInput) ["a"] (.create "b")
  exact ⟨rfl, h.2.2 0 "a" (by decide)⟩

/-- C5: out-of-range retrieval fails with detail "Item \x7bi\x7d not found"
in the typed service and "Index \x7bi\x7d out of range \x7blength\x7d" in
the untyped one; on the empty typed sequence, get_item 0 fails with detail
"Item 0 not found". -/
theorem claim_C5 (s : List CustomBaseModel.Item) (u : List String) (i : Int)
    (hs : i < 0 ∨ i ≥ (s.length : Int)) (hu : i < 0 ∨ i ≥ (u.length : Int)) :
    (CustomBaseModel.get_item s i).2 =
      .error ⟨404, "Item " ++ toString i ++ " not found"⟩ ∧
    (SimpleServer.get_item u i).2 =
      .error ⟨404, "Index " ++ toString i ++ " out of range "
        ++ toString u.length⟩ ∧
    (CustomBaseModel.get_item ([] : List CustomBaseModel.Item) 0).2 =
      .error ⟨404, "Item 0 not found"⟩ := by
  refine ⟨cbm_get_err s i hs, ss_get_err u i hu, ?_⟩
  have hstr : "Item " ++ toString (0 : Int) ++ " not found"
      = "Item 0 not found" := by decide
  exact hstr ▸ cbm_get_err [] 0 (by decide)

/-- C5 witness: the exact detail strings at concrete inputs. -/
theorem claim_C5_witness :
    (CustomBaseModel.get_item ([] : List CustomBaseModel.Item) 3).2 =
      .error ⟨404, "Item 3 not found"⟩ ∧
    (SimpleServer.get_item ["a"] 3).2 =
      .error ⟨404, "Index 3 out of range 1"⟩ := by
  have h := claim_C5 [] ["a"] 3 (by decide) (by decide)
  have h1 : "Item " ++ toString (3 : Int) ++ " not found"
      = "Item 3 not found" := by decide
  have h2 : "Index " ++ toString (3 : Int) ++ " out of range "
      ++ toString (List.length ["a"]) = "Index 3 out of range 1" := by decide
  exact ⟨h1 ▸ h.1, h2 ▸ h.2.1⟩

/-- C7: a failed (out-of-range) retrieval returns an error and leaves the
backing sequence unchanged, in both the typed and the untyped service. -/
theorem claim_C7 (s : List CustomBaseModel.Item) (u : List String) (i : Int)
    (hs : i < 0 ∨ i ≥ (s.length : Int)) (hu : i < 0 ∨ i ≥ (u.length : Int)) :
    ((CustomBaseModel.get_item s i).1 = s ∧
      ∃ e, (CustomBaseModel.get_item s i).2 = .error e) ∧
    ((SimpleServer.get_item u i).1 = u ∧
      ∃ e, (SimpleServer.get_item u i).2 = .error e) :=
  ⟨⟨cbm_get_fst s i, ⟨_, cbm_get_err s i hs⟩⟩,
    ⟨ss_get_fst u i, ⟨_, ss_get_err u i hu⟩⟩⟩

/-- C7 witness: failed retrieval on concrete states. -/
theorem claim_C7_witness :
    ((CustomBaseModel.get_item [appleInput] 5).1 = [appleInput] ∧
      ∃ e, (CustomBaseModel.get_item [appleInput] 5).2 = .error e) ∧
    ((SimpleServer.get_item ["a"] 5).1 = ["a"] ∧
      ∃ e, (SimpleServer.get_item ["a"] 5).2 = .error e) :=
  claim_C7 [appleInput] ["a"] 5 (by decide) (by decide)

/-- C8: the image endpoint streams a body whose first 8 bytes are the PNG
signature 89 50 4E 47 0D 0A 1A 0A, with content type image/png. -/
theorem claim_C8 (chunkData : List Nat) :
    (ImageServer.get_image chunkData).body.take 8 = ImageServer.pngSignature ∧
    (ImageServer.get_image chunkData).media_type = "image/png" :=
  ⟨rfl, rfl⟩

/-- C10: the read operations never modify the backing sequence, for every
state, every limit and every index (in range or not), while create_item
always changes it; in both the typed and the untyped service. -/
theorem claim_C10 (s : List CustomBaseModel.Item) (u : List String)
    (l : Option Int) (i : Int) (x : CustomBaseModel.Item) (y : String) :
    (CustomBaseModel.list_items s l).1 = s ∧
    (CustomBaseModel.get_item s i).1 = s ∧
    (CustomBaseModel.create_item s x).1 ≠ s ∧
    (SimpleServer.list_items u l).1 = u ∧
    (SimpleServer.get_item u i).1 = u ∧
    (SimpleServer.create_item u y).1 ≠ u := by
  refine ⟨cbm_list_fst s l, cbm_get_fst s i, ?_, ss_list_fst u l,
    ss_get_fst u i, ?_⟩
  · intro h
    have hlen := congrArg List.length h
    simp only [CustomBaseModel.create_item, List.length_append,
      List.length_cons, List.length_nil] at hlen
    omega
  · intro h
    have hlen := congrArg List.length h
    simp only [SimpleServer.create_item, List.length_append,
      List.length_cons, List.length_nil] at hlen
    omega
